import Mathlib

/-!
# Verification of the FABRIK chain solver (`src/ik.rs`)

This file is a shallow embedding of `FabrikChain` and its operations from
`src/ik.rs`, together with theorems settling the spec claims about it.

Modelling conventions:

* `f32` scalars are modelled by `ℝ` (exact arithmetic; the source's rounding is
  not modelled, which only matters for claims stated up to an epsilon).
* Rust panics are modelled explicitly: the operations return
  `Except Abnormal _`, and every construct of the source that can panic
  (indexing, `usize` subtraction, `unwrap`, `assert_eq!`, `todo!()`) is
  embedded through a helper that produces the corresponding `Abnormal` value.
  `usize` subtraction `i - 1` in particular is embedded by `usizeSub`, which
  fails when the subtrahend exceeds the minuend, exactly where the Rust
  expression panics (debug) or wraps to an out-of-bounds index (release).
* `glam`'s `Vec3::normalize` divides by the vector's length and on the zero
  vector produces NaN components without panicking.  NaN has no counterpart
  in `ℝ`, so `Vec3.normalizeE` surfaces that case as `.error .nanNormalize`;
  every other case is the exact division the library performs.
* `Quat::from_mat3`, `Quat::from_rotation_z` and quaternion multiplication
  are external library functions (`bevy_math`); no claim depends on the
  numeric components of the quaternion, so rotations are modelled as the free
  terms generated by those three constructors, keeping the exact call
  structure of the source visible.
* `SystemTime` is modelled by an explicit `now : ℝ` argument threaded to the
  operations that read the clock; `prev_time.elapsed()` becomes
  `now - prev_time` (the `expect` on it, which can only fail on a
  non-monotone clock, is modelled as succeeding).
* `dbg!(e)` evaluates `e` (including any panics inside it) and discards it;
  it is embedded that way.
-/

namespace RobotArm

noncomputable section

/-- Abnormal outcomes of running the source.  The first five model Rust
panics; `nanNormalize` is not a panic but marks the production of NaN
geometry by normalizing a zero-length vector (see the header comment). -/
inductive Abnormal where
  | subUnderflow
  | indexOOB
  | unwrapNone
  | assertFail
  | todoPanic
  | nanNormalize
deriving DecidableEq

/-- Checked `usize` subtraction: models the Rust expression `a - b` on
`usize`, which panics (or wraps out of bounds) when `b > a`. -/
def usizeSub (a b : Nat) : Except Abnormal Nat :=
  if b ≤ a then .ok (a - b) else .error .subUnderflow

/-- Checked indexing `xs[i]`, panicking out of bounds. -/
def idx {α : Type} (xs : List α) (i : Nat) : Except Abnormal α :=
  match xs.get? i with
  | some a => .ok a
  | none => .error .indexOOB

/-- Checked index assignment `xs[i] = a`, panicking out of bounds. -/
def setIdx {α : Type} (xs : List α) (i : Nat) (a : α) : Except Abnormal (List α) :=
  if i < xs.length then .ok (xs.set i a) else .error .indexOOB

/-- Model of `Option::unwrap` / `Option::expect`. -/
def expectSome {α : Type} : Option α → Except Abnormal α
  | some a => .ok a
  | none => .error .unwrapNone

/-- Model of `bevy_math::Vec3`, with `f32` components modelled over `ℝ`. -/
structure Vec3 where
  x : ℝ
  y : ℝ
  z : ℝ

noncomputable instance : DecidableEq Vec3 := Classical.decEq _

instance : Add Vec3 := ⟨fun a b => ⟨a.x + b.x, a.y + b.y, a.z + b.z⟩⟩

instance : Sub Vec3 := ⟨fun a b => ⟨a.x - b.x, a.y - b.y, a.z - b.z⟩⟩

instance : Zero Vec3 := ⟨⟨0, 0, 0⟩⟩

/-- Constant `Vec3::ZERO`. -/
def Vec3.ZERO : Vec3 := ⟨0, 0, 0⟩

/-- Constant `Vec3::ONE`. -/
def Vec3.ONE : Vec3 := ⟨1, 1, 1⟩

/-- Scalar multiplication `v * k` (`Vec3 * f32`). -/
def Vec3.smul (v : Vec3) (k : ℝ) : Vec3 := ⟨v.x * k, v.y * k, v.z * k⟩

/-- Componentwise scalar division `v / k` (`Vec3 / f32`). -/
def Vec3.divScalar (v : Vec3) (k : ℝ) : Vec3 := ⟨v.x / k, v.y / k, v.z / k⟩

/-- Model of `Vec3::dot`. -/
def Vec3.dot (a b : Vec3) : ℝ := a.x * b.x + a.y * b.y + a.z * b.z

/-- Model of `Vec3::length_squared`. -/
def Vec3.length_squared (v : Vec3) : ℝ := v.x * v.x + v.y * v.y + v.z * v.z

/-- Model of `Vec3::length`. -/
noncomputable def Vec3.length (v : Vec3) : ℝ := Real.sqrt v.length_squared

/-- Model of `Vec3::distance`. -/
noncomputable def Vec3.distance (a b : Vec3) : ℝ := (a - b).length

/-- Model of `Vec3::cross` (right-handed, as in `glam`). -/
def Vec3.cross (a b : Vec3) : Vec3 :=
  ⟨a.y * b.z - a.z * b.y, a.z * b.x - a.x * b.z, a.x * b.y - a.y * b.x⟩

/-- Model of `Vec3::normalize`, i.e. `self * self.length().recip()`.  On the zero vector
the library produces NaN components; that case is surfaced as
`.error .nanNormalize` (see the header comment). -/
noncomputable def Vec3.normalizeE (v : Vec3) : Except Abnormal Vec3 :=
  if v = 0 then .error .nanNormalize else .ok (v.smul (Real.sqrt v.length_squared)⁻¹)

/-- Model of `Vec3::angle_between`, i.e. `acos(dot / sqrt(lenSq * lenSq))`, as in `glam`. -/
noncomputable def Vec3.angle_between (a b : Vec3) : ℝ :=
  Real.arccos (a.dot b / Real.sqrt (a.length_squared * b.length_squared))

/-- Model of `f32::to_radians`. -/
noncomputable def f32_to_radians (x : ℝ) : ℝ := x * (Real.pi / 180)

/-- Model of `bevy_math::Mat3`, by columns, as built by `Mat3::from_cols`. -/
structure Mat3 where
  x_axis : Vec3
  y_axis : Vec3
  z_axis : Vec3

/-- Model of `Mat3::from_cols`. -/
def Mat3.from_cols (x y z : Vec3) : Mat3 := ⟨x, y, z⟩

/-- Model of `bevy_math::Quat`, as the free terms of the library calls the
source makes (no claim depends on the quaternion's numeric components). -/
inductive Quat where
  | from_mat3 (m : Mat3)
  | from_rotation_z (angle : ℝ)
  | mul (a b : Quat)

/-- Model of `bevy::transform::components::Transform`. -/
structure Transform where
  translation : Vec3
  rotation : Quat
  scale : Vec3

/-- Model of `MotionHueristics` (source spelling preserved). -/
structure MotionHueristics where
  anchor_points : List (Nat × Vec3 × Quat)
  parent_ranking : List (Nat × Int × Int)

/-- The field payload of `FabrikChain`, parametrised by the type of the two
self-referential `Option<Box<Self>>` fields (`limb`, `initial_state`). -/
structure ChainData (C : Type) where
  joints : List Vec3
  lengths : List ℝ
  segment_transforms : List Transform
  angles : List ℝ
  prev_angles : List ℝ
  angular_velocities : List ℝ
  targets : List (Nat × Vec3)
  motion_heuristics : MotionHueristics
  prev_time : ℝ
  lock_ground : Bool
  limb : Option C
  initial_state : Option C

/-- Model of `FabrikChain` from `src/ik.rs`: a chain whose `limb` (the preview chain)
and `initial_state` fields recursively hold optional boxed chains. -/
inductive FabrikChain where
  | mk (d : ChainData FabrikChain)

/-- Project out the field payload. -/
def FabrikChain.data : FabrikChain → ChainData FabrikChain
  | .mk d => d

def FabrikChain.joints (c : FabrikChain) : List Vec3 := c.data.joints

def FabrikChain.lengths (c : FabrikChain) : List ℝ := c.data.lengths

def FabrikChain.segment_transforms (c : FabrikChain) : List Transform :=
  c.data.segment_transforms

def FabrikChain.angles (c : FabrikChain) : List ℝ := c.data.angles

def FabrikChain.prev_angles (c : FabrikChain) : List ℝ := c.data.prev_angles

def FabrikChain.angular_velocities (c : FabrikChain) : List ℝ :=
  c.data.angular_velocities

def FabrikChain.targets (c : FabrikChain) : List (Nat × Vec3) := c.data.targets

def FabrikChain.prev_time (c : FabrikChain) : ℝ := c.data.prev_time

def FabrikChain.lock_ground (c : FabrikChain) : Bool := c.data.lock_ground

def FabrikChain.limb (c : FabrikChain) : Option FabrikChain := c.data.limb

def FabrikChain.initial_state (c : FabrikChain) : Option FabrikChain :=
  c.data.initial_state

def FabrikChain.withJoints (c : FabrikChain) (js : List Vec3) : FabrikChain :=
  .mk { c.data with joints := js }

def FabrikChain.withLengths (c : FabrikChain) (ls : List ℝ) : FabrikChain :=
  .mk { c.data with lengths := ls }

def FabrikChain.withSegmentTransforms (c : FabrikChain) (ts : List Transform) :
    FabrikChain :=
  .mk { c.data with segment_transforms := ts }

def FabrikChain.withAngles (c : FabrikChain) (as' : List ℝ) : FabrikChain :=
  .mk { c.data with angles := as' }

def FabrikChain.withPrevAngles (c : FabrikChain) (as' : List ℝ) : FabrikChain :=
  .mk { c.data with prev_angles := as' }

def FabrikChain.withAngularVelocities (c : FabrikChain) (vs : List ℝ) :
    FabrikChain :=
  .mk { c.data with angular_velocities := vs }

def FabrikChain.withPrevTime (c : FabrikChain) (t : ℝ) : FabrikChain :=
  .mk { c.data with prev_time := t }

def FabrikChain.withLimb (c : FabrikChain) (l : Option FabrikChain) : FabrikChain :=
  .mk { c.data with limb := l }

def FabrikChain.withInitialState (c : FabrikChain) (l : Option FabrikChain) :
    FabrikChain :=
  .mk { c.data with initial_state := l }

/-- Model of `PoseDiscrepancy` from `src/ik.rs`. -/
inductive PoseDiscrepancy where
  | withinTolerance
  | mildDivergence
  | severeDivergence
  | environmentalCompensation

/-- Model of `KinematicsMode` from `src/ik.rs`. -/
inductive KinematicsMode where
  | inverseKinematics
  | forwardKinematics
deriving DecidableEq

/-- Model of `FabrikChain::fwd_reach`.
Source (`src/ik.rs:136-142`):
```
for i in (0..self.joints.len() - 1).rev() {
    let (a, b) = (self.joints[i], self.joints[i-1]);
    let direction = (a - b).normalize();
    self.joints[i] = b + direction * self.lengths[i];
}
```
-/
noncomputable def FabrikChain.fwd_reach (c : FabrikChain) :
    Except Abnormal FabrikChain := do
  let u ← usizeSub c.joints.length 1
  ((List.range u).reverse).foldlM (fun s i => do
    let a ← idx s.joints i
    let i1 ← usizeSub i 1
    let b ← idx s.joints i1
    let direction ← (a - b).normalizeE
    let leni ← idx s.lengths i
    let js ← setIdx s.joints i (b + direction.smul leni)
    pure (s.withJoints js)) c

/-- Model of `FabrikChain::bwd_reach`.
Source (`src/ik.rs:144-150`):
```
for i in 0..self.joints.len() - 1 {
    let (a, b) = (self.joints[i], self.joints[i-1]);
    let direction = (b - a).normalize();
    self.joints[i+1] = a + direction * self.lengths[i];
}
```
-/
noncomputable def FabrikChain.bwd_reach (c : FabrikChain) :
    Except Abnormal FabrikChain := do
  let u ← usizeSub c.joints.length 1
  (List.range u).foldlM (fun s i => do
    let a ← idx s.joints i
    let i1 ← usizeSub i 1
    let b ← idx s.joints i1
    let direction ← (b - a).normalizeE
    let leni ← idx s.lengths i
    let js ← setIdx s.joints (i + 1) (a + direction.smul leni)
    pure (s.withJoints js)) c

/-- One iteration of the angular-velocity loop of
`recalculate_segments` (`src/ik.rs:106-108`): pushes
`(angles[i] - prev_angles[i]) / frame_delta_time`. -/
noncomputable def FabrikChain.velocity_step (frame_delta_time : ℝ)
    (s : FabrikChain) (i : Nat) : Except Abnormal FabrikChain := do
  let ai ← idx s.angles i
  let pi' ← idx s.prev_angles i
  pure (s.withAngularVelocities
    (s.angular_velocities ++ [(ai - pi') / frame_delta_time]))

/-- One iteration of the segment-transform loop of
`recalculate_segments` (`src/ik.rs:110-120`). -/
noncomputable def FabrikChain.segment_step (s : FabrikChain) (i : Nat) :
    Except Abnormal FabrikChain := do
  let a ← idx s.joints i
  let i1 ← usizeSub i 1
  let b ← idx s.joints i1
  let ab_vector ← (b - a).normalizeE
  let world_axis : Vec3 := ⟨0, 1, 0⟩
  let perp_vector ← (ab_vector.cross world_axis).normalizeE
  let perp_vector2 ← (ab_vector.cross perp_vector).normalizeE
  let quat := Quat.mul
    (Quat.from_mat3 (Mat3.from_cols ab_vector perp_vector perp_vector2))
    (Quat.from_rotation_z (f32_to_radians 90))
  pure (s.withSegmentTransforms (s.segment_transforms ++
    [⟨(a + b).divScalar 2, quat, Vec3.ONE⟩]))

/-- Model of `FabrikChain::recalculate_segments` (`src/ik.rs:98-122`).  Reads the
clock (`now`), derives angular velocities from `prev_angles`, rebuilds one
`Transform` per segment, and ends with
`assert_eq!(self.segment_transforms.len(), self.lengths.len())`. -/
noncomputable def FabrikChain.recalculate_segments (c : FabrikChain) (now : ℝ) :
    Except Abnormal FabrikChain := do
  let frame_delta_time := now - c.prev_time
  let c := c.withPrevTime now
  let c := c.withAngularVelocities []
  let c ← (List.range c.prev_angles.length).foldlM
    (FabrikChain.velocity_step frame_delta_time) c
  let c := c.withSegmentTransforms []
  let c ← (List.range' 1 (c.joints.length - 1)).foldlM FabrikChain.segment_step c
  if c.segment_transforms.length = c.lengths.length then pure c
  else .error .assertFail

/-- One iteration of the interior-angle loop of
`recalculate_angles` (`src/ik.rs:156-160`): pushes the angle at joint `i-1`
between the vectors toward joints `i-2` and `i`. -/
noncomputable def FabrikChain.angle_step (s : FabrikChain) (i : Nat) :
    Except Abnormal FabrikChain := do
  let a ← idx s.joints (i - 2)
  let b ← idx s.joints (i - 1)
  let c' ← idx s.joints i
  pure (s.withAngles (s.angles ++ [(a - b).angle_between (c' - b)]))

/-- Model of `FabrikChain::recalculate_angles` (`src/ik.rs:152-162`).  The source
swaps `angles` into `prev_angles`, clears `angles` (discarding the swapped-in
old `prev_angles`), pushes `PI`, pushes one interior angle per loop index
`i ∈ [2, n)`, and pushes `PI`; the net effect on the two fields is
embedded directly. -/
noncomputable def FabrikChain.recalculate_angles (c : FabrikChain) :
    Except Abnormal FabrikChain := do
  let c := (c.withPrevAngles c.angles).withAngles [Real.pi]
  let c ← (List.range' 2 (c.joints.length - 2)).foldlM FabrikChain.angle_step c
  pure (c.withAngles (c.angles ++ [Real.pi]))

/-- Model of `FabrikChain::new` (`src/ik.rs:54-83`).
The length-computing loop is written `for i in i..joints.len()` in the
source, whose lower bound is an undefined name (the file does not compile as
given); it is embedded with lower bound `1`, the only value consistent with
the rest of the code: the body reads `joints[i-1]`, which panics for `i = 0`
on every input, and `recalculate_segments` (invoked by `new` itself) asserts
`lengths.len() == joints.len() - 1`, which only a start of `1` produces. -/
noncomputable def FabrikChain.new (joints : List Vec3)
    (motion_heuristics : MotionHueristics) (now : ℝ) :
    Except Abnormal FabrikChain := do
  let lengths ← (List.range' 1 (joints.length - 1)).foldlM (fun ls i => do
    let a ← idx joints i
    let i1 ← usizeSub i 1
    let b ← idx joints i1
    pure (ls ++ [a.distance b])) ([] : List ℝ)
  let new_self : FabrikChain := .mk
    { joints := joints
      lengths := lengths
      segment_transforms := []
      angles := []
      prev_angles := []
      angular_velocities := []
      targets := []
      motion_heuristics := motion_heuristics
      prev_time := now
      lock_ground := true
      limb := none
      initial_state := none }
  let final_self := (new_self.withLimb (some new_self)).withInitialState
    (some new_self)
  final_self.recalculate_segments now

/-- Model of `FabrikChain::finalize` (`src/ik.rs:85-92`): clones the whole current
chain (including its current `limb`) and installs that clone as the new
`limb`. -/
def FabrikChain.finalize (c : FabrikChain) : FabrikChain := c.withLimb (some c)

/-- One round of the `WithinTolerance` iteration loop of `solve`
(`src/ik.rs:169-181`): apply every stored target, forward pass, ground lock
if enabled, backward pass, then the `dbg!(self.angles[i])` loop (which reads
`angles[i]` for every joint index and discards it). -/
noncomputable def FabrikChain.within_round (s : FabrikChain) :
    Except Abnormal FabrikChain := do
  let s ← s.targets.foldlM (fun s2 (t : Nat × Vec3) => do
    let js ← setIdx s2.joints t.1 t.2
    pure (s2.withJoints js)) s
  let s ← s.fwd_reach
  let s ← if s.lock_ground then do
      let _ ← expectSome s.joints.head?
      pure (s.withJoints (s.joints.set 0 Vec3.ZERO))
    else pure s
  let s ← s.bwd_reach
  let _ ← (List.range s.joints.length).foldlM (fun _ i => do
    let _ ← idx s.angles i
    pure ()) ()
  pure s

/-- One iteration of the `MildDivergence` loop of `solve`
(`src/ik.rs:185-191`): computes the residual toward the preview chain's
joint, its half (`infintesimal_approximation`, unused), its normalization,
and the normalization divided by the joint's angle, then `dbg!`s and
discards them.  The chain itself is returned unchanged. -/
noncomputable def FabrikChain.mild_step (s : FabrikChain) (i : Nat) :
    Except Abnormal FabrikChain := do
  let limbChain ← expectSome s.limb
  let limbJoint ← idx limbChain.joints i
  let selfJoint ← idx s.joints i
  let residual_vec := limbJoint - selfJoint
  let _infintesimal_approximation := residual_vec.divScalar 2
  let r_hat ← residual_vec.normalizeE
  let ai ← idx s.angles i
  let _r_hat_div_angle := r_hat.divScalar ai
  pure s

/-- Model of `FabrikChain::solve` (`src/ik.rs:164-201`).  `kinematics_mode` is an
in-out parameter in the source; it is threaded through the result.  All
branches of the `match` fall through to `recalculate_segments`; the
`SevereDivergence` and `EnvironmentalCompensation` arms are `todo!()`. -/
noncomputable def FabrikChain.solve (c : FabrikChain) (iterations : Nat)
    (pose_discrepancy : PoseDiscrepancy) (kinematics_mode : KinematicsMode)
    (now : ℝ) : Except Abnormal (FabrikChain × KinematicsMode) := do
  let (c, kinematics_mode) ← (match pose_discrepancy with
    | .withinTolerance => do
      let km := KinematicsMode.inverseKinematics
      let c ← c.recalculate_angles
      let c ← (List.range iterations).foldlM
        (fun s _ => FabrikChain.within_round s) c
      pure (c, km)
    | .mildDivergence => do
      let km := KinematicsMode.forwardKinematics
      let c ← (List.range c.joints.length).foldlM FabrikChain.mild_step c
      pure (c, km)
    | .severeDivergence => .error .todoPanic
    | .environmentalCompensation => .error .todoPanic
    : Except Abnormal (FabrikChain × KinematicsMode))
  let c ← c.recalculate_segments now
  pure (c, kinematics_mode)

/-- The interior angle the source computes at joint `i`: the angle between
the vector from joint `i` to its predecessor and the vector from joint `i`
to its successor (`recalculate_angles` pushes it for loop index `i + 1`). -/
def interiorAngle (js : List Vec3) (i : Nat) : ℝ :=
  ((js.getD (i - 1) 0) - (js.getD i 0)).angle_between
    ((js.getD (i + 1) 0) - (js.getD i 0))

/-! ## Concrete chains used to settle the claims

Each claim that needs a concrete input gets its own literal chain, built by
overriding fields of `baseData`. -/

/-- Neutral field payload used to build concrete chains. -/
def baseData : ChainData FabrikChain :=
  { joints := []
    lengths := []
    segment_transforms := []
    angles := []
    prev_angles := []
    angular_velocities := []
    targets := []
    motion_heuristics := ⟨[], []⟩
    prev_time := 0
    lock_ground := true
    limb := none
    initial_state := none }

/-- C1's chain: two joints one unit apart, `lengths = [1]`. -/
def cC1 : FabrikChain :=
  .mk { baseData with
        joints := [⟨0, 0, 0⟩, ⟨1, 0, 0⟩]
        lengths := [1] }

/-- C2's chain: three collinear joints with distinct segment lengths. -/
def cC2 : FabrikChain :=
  .mk { baseData with
        joints := [⟨0, 0, 0⟩, ⟨1, 0, 0⟩, ⟨3, 0, 0⟩]
        lengths := [1, 2] }

/-- C3's chain: two joints two units apart along `z`. -/
def cC3 : FabrikChain :=
  .mk { baseData with
        joints := [⟨0, 0, 0⟩, ⟨0, 0, 2⟩]
        lengths := [2] }

/-- C4's chain: two joints, `lock_ground = true` (the default), one stored
target pinning the end effector. -/
def cC4 : FabrikChain :=
  .mk { baseData with
        joints := [⟨0, 0, 0⟩, ⟨1, 0, 0⟩]
        lengths := [1]
        targets := [(1, ⟨1, 1, 0⟩)] }

/-- C5's chain: a chain with no preview yet. -/
def cC5 : FabrikChain :=
  .mk { baseData with
        joints := [⟨0, 0, 0⟩, ⟨1, 0, 0⟩]
        lengths := [1] }

/-- C6's chain. -/
def cC6 : FabrikChain :=
  .mk { baseData with
        joints := [⟨0, 0, 0⟩, ⟨1, 0, 0⟩]
        lengths := [1] }

/-- The chain `FabrikChain::new` builds (before installing the preview and
initial-state snapshots) from a single joint `v`: used for C7. -/
def c7inner (v : Vec3) (mh : MotionHueristics) (now : ℝ) : FabrikChain :=
  .mk { joints := [v]
        lengths := []
        segment_transforms := []
        angles := []
        prev_angles := []
        angular_velocities := []
        targets := []
        motion_heuristics := mh
        prev_time := now
        lock_ground := true
        limb := none
        initial_state := none }

/-- C8's preview chain: same two joints, shifted one unit along `z`. -/
def lM8 : FabrikChain :=
  .mk { baseData with joints := [⟨0, 0, 1⟩, ⟨1, 0, 1⟩] }

/-- C8's chain: two joints, angles `[π, π]`, preview `lM8` committed. -/
def cM8 : FabrikChain :=
  .mk { baseData with
        joints := [⟨0, 0, 0⟩, ⟨1, 0, 0⟩]
        lengths := [1]
        angles := [Real.pi, Real.pi]
        limb := some lM8 }

/-- The chain `solve` returns for `cM8` under `MildDivergence`: identical to
`cM8` except for the segment transform rebuilt by `recalculate_segments`;
in particular its joints are unchanged. -/
def cM8res : FabrikChain :=
  .mk { baseData with
        joints := [⟨0, 0, 0⟩, ⟨1, 0, 0⟩]
        lengths := [1]
        angles := [Real.pi, Real.pi]
        limb := some lM8
        segment_transforms := [⟨⟨1 / 2, 0, 0⟩,
          Quat.mul (Quat.from_mat3
            (Mat3.from_cols ⟨-1, 0, 0⟩ ⟨0, 0, -1⟩ ⟨0, -1, 0⟩))
            (Quat.from_rotation_z (f32_to_radians 90)), Vec3.ONE⟩] }

/-- C9's chain: a single segment parallel to the world-up vector `(0,1,0)`. -/
def cC9 : FabrikChain :=
  .mk { baseData with
        joints := [⟨0, 0, 0⟩, ⟨0, 1, 0⟩]
        lengths := [1] }

/-- C10's witness chain: two joints. -/
def cC10 : FabrikChain :=
  .mk { baseData with
        joints := [⟨0, 0, 0⟩, ⟨0, 0, 3⟩]
        lengths := [3]
        angles := [1, 2] }

end

/-! ## General lemmas about the embedding -/

theorem pure_eq_ok {α : Type} (a : α) : (pure a : Except Abnormal α) = .ok a :=
  rfl

theorem ok_bind {α β : Type} (a : α) (f : α → Except Abnormal β) :
    (Except.ok a : Except Abnormal α) >>= f = f a := rfl

theorem error_bind {α β : Type} (e : Abnormal) (f : α → Except Abnormal β) :
    (Except.error e : Except Abnormal α) >>= f = .error e := rfl

theorem map_error {α β : Type} (e : Abnormal) (f : α → β) :
    f <$> (Except.error e : Except Abnormal α) = .error e := rfl

theorem map_ok {α β : Type} (a : α) (f : α → β) :
    f <$> (Except.ok a : Except Abnormal α) = .ok (f a) := rfl

theorem bind_eq_ok {α β : Type} {x : Except Abnormal α}
    {f : α → Except Abnormal β} {b : β} :
    x >>= f = .ok b ↔ ∃ a, x = .ok a ∧ f a = .ok b := by
  cases x with
  | ok a => simp [ok_bind]
  | error e => simp [error_bind]

theorem vec3_sub_def (a b c d e f : ℝ) :
    (⟨a, b, c⟩ - ⟨d, e, f⟩ : Vec3) = ⟨a - d, b - e, c - f⟩ := rfl

theorem vec3_add_def (a b c d e f : ℝ) :
    (⟨a, b, c⟩ + ⟨d, e, f⟩ : Vec3) = ⟨a + d, b + e, c + f⟩ := rfl

theorem vec3_eq_zero_iff (x y z : ℝ) :
    (⟨x, y, z⟩ : Vec3) = 0 ↔ x = 0 ∧ y = 0 ∧ z = 0 := by
  constructor
  · intro h
    exact ⟨congrArg Vec3.x h, congrArg Vec3.y h, congrArg Vec3.z h⟩
  · rintro ⟨hx, hy, hz⟩
    show _ = (⟨0, 0, 0⟩ : Vec3)
    rw [hx, hy, hz]

@[simp] theorem joints_withAngles (c : FabrikChain) (a : List ℝ) :
    (c.withAngles a).joints = c.joints := rfl

@[simp] theorem joints_withPrevAngles (c : FabrikChain) (a : List ℝ) :
    (c.withPrevAngles a).joints = c.joints := rfl

@[simp] theorem joints_withPrevTime (c : FabrikChain) (t : ℝ) :
    (c.withPrevTime t).joints = c.joints := rfl

@[simp] theorem joints_withAngularVelocities (c : FabrikChain) (v : List ℝ) :
    (c.withAngularVelocities v).joints = c.joints := rfl

@[simp] theorem joints_withSegmentTransforms (c : FabrikChain)
    (t : List Transform) : (c.withSegmentTransforms t).joints = c.joints := rfl

@[simp] theorem angles_withAngles (c : FabrikChain) (a : List ℝ) :
    (c.withAngles a).angles = a := rfl

@[simp] theorem prev_angles_withAngles (c : FabrikChain) (a : List ℝ) :
    (c.withAngles a).prev_angles = c.prev_angles := rfl

@[simp] theorem prev_angles_withPrevAngles (c : FabrikChain) (a : List ℝ) :
    (c.withPrevAngles a).prev_angles = a := rfl

@[simp] theorem withAngles_withAngles (c : FabrikChain) (a b : List ℝ) :
    (c.withAngles a).withAngles b = c.withAngles b := rfl

/-- If every successful step of a fold preserves a projection `P`, the whole
fold preserves `P`. -/
theorem foldlM_ok_pres {σ τ ι : Type} (P : σ → τ) (f : σ → ι → Except Abnormal σ)
    (hf : ∀ s i r, f s i = .ok r → P r = P s) :
    ∀ (l : List ι) (s r : σ), l.foldlM f s = .ok r → P r = P s := by
  intro l
  induction l with
  | nil =>
    intro s r h
    simp only [List.foldlM, pure_eq_ok, Except.ok.injEq] at h
    rw [h]
  | cons i l ih =>
    intro s r h
    simp only [List.foldlM] at h
    rw [bind_eq_ok] at h
    obtain ⟨s', hs', hrest⟩ := h
    rw [ih s' r hrest, hf s i s' hs']

/-- A successful `mild_step` returns the chain unchanged. -/
theorem mild_step_ok (s : FabrikChain) (i : Nat) (r : FabrikChain)
    (h : s.mild_step i = .ok r) : r = s := by
  unfold FabrikChain.mild_step at h
  rw [bind_eq_ok] at h
  obtain ⟨l1, _, h⟩ := h
  rw [bind_eq_ok] at h
  obtain ⟨l2, _, h⟩ := h
  rw [bind_eq_ok] at h
  obtain ⟨l3, _, h⟩ := h
  rw [bind_eq_ok] at h
  obtain ⟨l4, _, h⟩ := h
  rw [bind_eq_ok] at h
  obtain ⟨l5, _, h⟩ := h
  simp only [pure_eq_ok, Except.ok.injEq] at h
  rw [h]

/-- A successful `velocity_step` does not move the joints. -/
theorem velocity_step_joints (dt : ℝ) (s : FabrikChain) (i : Nat)
    (r : FabrikChain) (h : FabrikChain.velocity_step dt s i = .ok r) :
    r.joints = s.joints := by
  unfold FabrikChain.velocity_step at h
  rw [bind_eq_ok] at h
  obtain ⟨l1, _, h⟩ := h
  rw [bind_eq_ok] at h
  obtain ⟨l2, _, h⟩ := h
  simp only [pure_eq_ok, Except.ok.injEq] at h
  rw [← h]
  rfl

/-- A successful `segment_step` does not move the joints. -/
theorem segment_step_joints (s : FabrikChain) (i : Nat) (r : FabrikChain)
    (h : s.segment_step i = .ok r) : r.joints = s.joints := by
  unfold FabrikChain.segment_step at h
  rw [bind_eq_ok] at h
  obtain ⟨l1, _, h⟩ := h
  rw [bind_eq_ok] at h
  obtain ⟨l2, _, h⟩ := h
  rw [bind_eq_ok] at h
  obtain ⟨l3, _, h⟩ := h
  rw [bind_eq_ok] at h
  obtain ⟨l4, _, h⟩ := h
  rw [bind_eq_ok] at h
  obtain ⟨l5, _, h⟩ := h
  rw [bind_eq_ok] at h
  obtain ⟨l6, _, h⟩ := h
  simp only [pure_eq_ok, Except.ok.injEq] at h
  rw [← h]
  rfl

/-- A successful `recalculate_segments` does not move the joints. -/
theorem recalculate_segments_joints (c : FabrikChain) (now : ℝ)
    (r : FabrikChain) (h : c.recalculate_segments now = .ok r) :
    r.joints = c.joints := by
  unfold FabrikChain.recalculate_segments at h
  rw [bind_eq_ok] at h
  obtain ⟨c1, hc1, h⟩ := h
  rw [bind_eq_ok] at h
  obtain ⟨c2, hc2, h⟩ := h
  have h1 : c1.joints =
      ((c.withPrevTime now).withAngularVelocities []).joints :=
    foldlM_ok_pres FabrikChain.joints _ (velocity_step_joints _) _ _ _ hc1
  have h2 : c2.joints = (c1.withSegmentTransforms []).joints :=
    foldlM_ok_pres FabrikChain.joints _ segment_step_joints _ _ _ hc2
  have h3 : r = c2 := by
    by_cases hlen : c2.segment_transforms.length = c2.lengths.length
    · rw [if_pos hlen, pure_eq_ok, Except.ok.injEq] at h
      rw [h]
    · rw [if_neg hlen] at h
      exact absurd h (by simp)
  rw [h3, h2, joints_withSegmentTransforms, h1]
  rfl

/-- Helper: in-bounds checked indexing yields `getD`. -/
theorem idx_eq_ok {α : Type} (xs : List α) (k : Nat) (d : α)
    (h : k < xs.length) : idx xs k = .ok (xs.getD k d) := by
  unfold idx
  cases hk : xs.get? k with
  | none =>
    rw [List.get?_eq_none] at hk
    omega
  | some a =>
    have : xs.getD k d = a := by
      rw [List.getD_eq_get?, hk]
      rfl
    rw [this]

/-- Lemma: `angle_step` at loop index `j ∈ [2, n)` succeeds and appends the
interior angle at joint `j - 1`. -/
theorem angle_step_eq (s : FabrikChain) (j : Nat) (h2 : 2 ≤ j)
    (hj : j < s.joints.length) :
    s.angle_step j =
      .ok (s.withAngles (s.angles ++ [interiorAngle s.joints (j - 1)])) := by
  unfold FabrikChain.angle_step
  rw [idx_eq_ok s.joints (j - 2) 0 (by omega),
    idx_eq_ok s.joints (j - 1) 0 (by omega),
    idx_eq_ok s.joints j 0 (by omega), ok_bind, ok_bind, ok_bind, pure_eq_ok]
  have e1 : j - 1 - 1 = j - 2 := by omega
  have e2 : j - 1 + 1 = j := by omega
  rw [interiorAngle, e1, e2]

/-- The interior-angle loop, run over any in-bounds index list, appends
exactly the corresponding interior angles. -/
theorem angles_loop_eq :
    ∀ (l : List Nat) (s : FabrikChain),
      (∀ j ∈ l, 2 ≤ j ∧ j < s.joints.length) →
      l.foldlM FabrikChain.angle_step s =
        .ok (s.withAngles
          (s.angles ++ l.map (fun j => interiorAngle s.joints (j - 1)))) := by
  intro l
  induction l with
  | nil =>
    intro s _
    simp only [List.foldlM, List.map_nil, List.append_nil, pure_eq_ok,
      Except.ok.injEq]
    cases s
    rfl
  | cons j l ih =>
    intro s hb
    obtain ⟨hj2, hjlt⟩ := hb j (List.mem_cons_self j l)
    simp only [List.foldlM]
    rw [angle_step_eq s j hj2 hjlt, ok_bind]
    rw [ih (s.withAngles (s.angles ++ [interiorAngle s.joints (j - 1)]))
      (by
        intro k hk
        rw [joints_withAngles]
        exact hb k (List.mem_cons_of_mem j hk))]
    simp only [joints_withAngles, angles_withAngles, withAngles_withAngles,
      List.map_cons, List.append_assoc, List.singleton_append]

/-- Lemma: `recalculate_angles` always succeeds, and produces
`π :: interior angles ++ [π]` while moving the old angles into
`prev_angles`. -/
theorem recalculate_angles_eq (c : FabrikChain) :
    c.recalculate_angles =
      .ok ((c.withPrevAngles c.angles).withAngles
        (Real.pi :: ((List.range' 2 (c.joints.length - 2)).map
          (fun j => interiorAngle c.joints (j - 1)) ++ [Real.pi]))) := by
  unfold FabrikChain.recalculate_angles
  dsimp only
  simp only [joints_withAngles, joints_withPrevAngles]
  rw [angles_loop_eq (List.range' 2 (c.joints.length - 2))
    ((c.withPrevAngles c.angles).withAngles [Real.pi])
    (by
      intro j hj
      rw [List.mem_range'] at hj
      constructor
      · omega
      · simp only [joints_withAngles, joints_withPrevAngles]
        omega)]
  rw [ok_bind, pure_eq_ok]
  simp only [joints_withAngles, joints_withPrevAngles, angles_withAngles,
    withAngles_withAngles, List.singleton_append, List.cons_append,
    List.nil_append]

/-- Whenever `solve` with `MildDivergence` returns successfully, the joints
of the returned chain are exactly the joints of the input chain. -/
theorem solve_mild_preserves_joints (c : FabrikChain) (iterations : Nat)
    (km : KinematicsMode) (now : ℝ) (r : FabrikChain × KinematicsMode)
    (h : c.solve iterations .mildDivergence km now = .ok r) :
    r.1.joints = c.joints := by
  unfold FabrikChain.solve at h
  simp only [bind_eq_ok] at h
  obtain ⟨⟨c1, km1⟩, hbranch, c3, hseg, hr⟩ := h
  simp only [bind_eq_ok, pure_eq_ok, Except.ok.injEq, Prod.mk.injEq] at hbranch
  obtain ⟨c2, hfold, hc2, _⟩ := hbranch
  have hkeep : c2 = c :=
    foldlM_ok_pres id FabrikChain.mild_step
      (fun s i r h => mild_step_ok s i r h) _ c c2 hfold
  simp only [pure_eq_ok, Except.ok.injEq] at hr
  rw [← hr]
  rw [recalculate_segments_joints c1 now c3 hseg, ← hc2, hkeep]

/-! ## The claims -/

/-- C1: the claim states that after any execution of `fwd_reach` or
`bwd_reach` every segment keeps its recorded length.  The code violates the
claim's premise that the passes complete: both loops read `joints[i-1]`
while `i` reaches `0`, so on every chain with at least two joints both
passes panic via unsigned-index underflow (and the iterations that do run
before the panic apply `lengths[i]` to the segment between `joints[i-1]`
and `joints[i]`, which is the recorded length of the other adjacent
segment).  Both passes are evaluated here on the two-joint chain `cC1`. -/
theorem C1_reach_passes_panic :
    cC1.fwd_reach = .error .subUnderflow ∧
    cC1.bwd_reach = .error .subUnderflow :=
  ⟨rfl, rfl⟩

/-- C2: the claim states `fwd_reach` traverses `i = n-1` down to `1` and
repositions the earlier joint `joints[i-1]` of each pair.  In the code the
loop is `(0..n-1).rev()`, i.e. `i = n-2` down to `0`; each iteration
repositions the *later* joint `joints[i]` along the direction from the
earlier joint to the later one, and the final iteration `i = 0` reads
`joints[i-1]`, which underflows.  Evaluated on the three-joint chain `cC2`
(the `i = 1` iteration executes, then `i = 0` panics). -/
theorem C2_fwd_reach_traversal : cC2.fwd_reach = .error .subUnderflow := by
  simp [FabrikChain.fwd_reach, cC2, baseData, FabrikChain.joints,
    FabrikChain.lengths, FabrikChain.data, FabrikChain.withJoints,
    idx, usizeSub, setIdx, Vec3.normalizeE, Vec3.smul, Vec3.length_squared,
    vec3_eq_zero_iff, vec3_sub_def, vec3_add_def, List.foldlM,
    List.foldrM_cons, List.foldrM_nil, List.range_succ, List.range_zero,
    ok_bind, error_bind, pure_eq_ok, Real.sqrt_one]

/-- C3: the claim states both reach passes perform only in-bounds indexing,
with no unsigned-index underflow, so that the out-of-bounds branch is
unreachable in a total embedding.  It is reachable: on the two-joint chain
`cC3` both passes take `i = 0` and the read of `joints[i-1]` underflows. -/
theorem C3_reach_passes_index_underflow :
    cC3.fwd_reach = .error .subUnderflow ∧
    cC3.bwd_reach = .error .subUnderflow :=
  ⟨rfl, rfl⟩

/-- C4: the claim states that with `ground_lock` set, one full
`WithinTolerance` solve round ends with the root joint at the origin.  The
round never completes: after the stored target is applied, `fwd_reach`
panics by index underflow before the ground-lock assignment is reached.
Evaluated on `cC4` (two joints, one target, `lock_ground = true`, one
iteration). -/
theorem C4_ground_lock_round_panics :
    cC4.solve 1 .withinTolerance .inverseKinematics 0 =
      .error .subUnderflow :=
  rfl

/-- C5: the claim states that repeated commits never produce a preview
chain holding a non-null nested preview.  `finalize` clones the whole chain,
including its current `limb`, into the new `limb`, so after two commits the
preview's own preview is non-null (nesting depth grows by one per call). -/
theorem C5_finalize_nests_preview :
    ((cC5.finalize.finalize).limb.bind FabrikChain.limb).isSome = true :=
  rfl

/-- C6 counterexample: invoking `solve` with `SevereDivergence` does not
return a recoverable `UnsupportedClassification` value — no such type
exists in the code; the arm is `todo!()`, which panics (modelled as the
abnormal outcome `.todoPanic`, a fatal abort, not an `Except`-style result
the caller can match on). -/
theorem C6_counterexample :
    cC6.solve 1 .severeDivergence .inverseKinematics 0 = .error .todoPanic :=
  rfl

/-- C6 (amended): `solve` with `SevereDivergence` or
`EnvironmentalCompensation` always panics via `todo!()` — a fatal abort
raised before any joint is mutated and before `recalculate_segments` runs —
rather than returning an `UnsupportedClassification` error value. -/
theorem C6_unimplemented_branches_panic (c : FabrikChain) (iterations : Nat)
    (km : KinematicsMode) (now : ℝ) :
    c.solve iterations .severeDivergence km now = .error .todoPanic ∧
    c.solve iterations .environmentalCompensation km now = .error .todoPanic :=
  ⟨rfl, rfl⟩

/-- C7 counterexample: constructing a chain from the single joint
`(0,0,0)` does not fail with `InvalidChain` — `new` has no failure path for
short inputs and returns a fully formed chain with empty `lengths`. -/
theorem C7_counterexample :
    FabrikChain.new [⟨0, 0, 0⟩] ⟨[], []⟩ 0 =
      .ok (.mk { joints := [⟨0, 0, 0⟩]
                 lengths := []
                 segment_transforms := []
                 angles := []
                 prev_angles := []
                 angular_velocities := []
                 targets := []
                 motion_heuristics := ⟨[], []⟩
                 prev_time := 0
                 lock_ground := true
                 limb := some (c7inner ⟨0, 0, 0⟩ ⟨[], []⟩ 0)
                 initial_state := some (c7inner ⟨0, 0, 0⟩ ⟨[], []⟩ 0) }) :=
  rfl

/-- C7 (amended): construction from a single joint succeeds for every
input: `new` performs no joint-count validation (there is no `InvalidChain`
error anywhere in the code) and returns a chain with the one joint, empty
`lengths` and empty `segment_transforms`, with identical snapshots installed
as `limb` and `initial_state`. -/
theorem C7_new_accepts_single_joint (v : Vec3) (mh : MotionHueristics)
    (now : ℝ) :
    FabrikChain.new [v] mh now =
      .ok (.mk { joints := [v]
                 lengths := []
                 segment_transforms := []
                 angles := []
                 prev_angles := []
                 angular_velocities := []
                 targets := []
                 motion_heuristics := mh
                 prev_time := now
                 lock_ground := true
                 limb := some (c7inner v mh now)
                 initial_state := some (c7inner v mh now) }) :=
  rfl

/-- C8 counterexample: on `cM8`, whose committed preview `lM8` differs from
the current pose at every joint, `solve` with `MildDivergence` returns
successfully with the joints exactly unchanged — the half-step
`residual_vec / 2.0` is computed into an unused local and never applied. -/
theorem C8_counterexample :
    cM8.solve 1 .mildDivergence .inverseKinematics 0 =
        .ok (cM8res, .forwardKinematics) ∧
    cM8res.joints = cM8.joints ∧
    cM8.limb = some lM8 ∧
    lM8.joints ≠ cM8.joints := by
  refine ⟨?_, rfl, rfl, ?_⟩
  · simp [FabrikChain.solve, FabrikChain.mild_step,
      FabrikChain.recalculate_segments, FabrikChain.velocity_step,
      FabrikChain.segment_step, cM8, cM8res, lM8, baseData,
      FabrikChain.joints, FabrikChain.lengths, FabrikChain.prev_angles,
      FabrikChain.angles, FabrikChain.angular_velocities,
      FabrikChain.segment_transforms, FabrikChain.prev_time,
      FabrikChain.limb, FabrikChain.data, FabrikChain.withPrevTime,
      FabrikChain.withAngularVelocities, FabrikChain.withSegmentTransforms,
      idx, usizeSub, expectSome, Vec3.normalizeE, Vec3.cross, Vec3.smul,
      Vec3.divScalar, Vec3.length_squared, vec3_eq_zero_iff, List.foldlM,
      ok_bind, error_bind, map_error, map_ok, vec3_sub_def, vec3_add_def,
      pure_eq_ok, Real.sqrt_one]
  · intro h
    have := congrArg (fun l => (l.getD 0 Vec3.ZERO).z) h
    simp [lM8, cM8, baseData, FabrikChain.joints, FabrikChain.data,
      Vec3.ZERO] at this

/-- C8 (amended): solving with `MildDivergence` never moves a joint: the
branch computes the residual toward the preview, its half-step and the
angle-normalized direction, but discards them all (`dbg!` only), so
whenever `solve` returns successfully the output joints equal the input
joints; no reach pass runs in this branch. -/
theorem C8_mild_divergence_keeps_joints (c : FabrikChain) (iterations : Nat)
    (km : KinematicsMode) (now : ℝ) (r : FabrikChain × KinematicsMode)
    (h : c.solve iterations .mildDivergence km now = .ok r) :
    r.1.joints = c.joints :=
  solve_mild_preserves_joints c iterations km now r h

/-- C8 witness: the amended theorem applied to the concrete chain `cM8`. -/
theorem C8_witness :
    cM8.solve 1 .mildDivergence .inverseKinematics 0 =
        .ok (cM8res, .forwardKinematics) ∧
    (cM8res, KinematicsMode.forwardKinematics).1.joints = cM8.joints := by
  have hEval : cM8.solve 1 .mildDivergence .inverseKinematics 0 =
      .ok (cM8res, .forwardKinematics) := by
    simp [FabrikChain.solve, FabrikChain.mild_step,
      FabrikChain.recalculate_segments, FabrikChain.velocity_step,
      FabrikChain.segment_step, cM8, cM8res, lM8, baseData,
      FabrikChain.joints, FabrikChain.lengths, FabrikChain.prev_angles,
      FabrikChain.angles, FabrikChain.angular_velocities,
      FabrikChain.segment_transforms, FabrikChain.prev_time,
      FabrikChain.limb, FabrikChain.data, FabrikChain.withPrevTime,
      FabrikChain.withAngularVelocities, FabrikChain.withSegmentTransforms,
      idx, usizeSub, expectSome, Vec3.normalizeE, Vec3.cross, Vec3.smul,
      Vec3.divScalar, Vec3.length_squared, vec3_eq_zero_iff, List.foldlM,
      ok_bind, error_bind, map_error, map_ok, vec3_sub_def, vec3_add_def,
      pure_eq_ok, Real.sqrt_one]
  exact ⟨hEval,
    C8_mild_divergence_keeps_joints cM8 1 .inverseKinematics 0
      (cM8res, .forwardKinematics) hEval⟩

/-- C10: after any call to `recalculate_angles` on a chain with at least
two joints, the recomputation succeeds without moving joints, the previous
angles are saved into `prev_angles`, one angle per joint is produced, the
first and last angles are exactly `π`, and every interior angle is the
angle between the vector from that joint to its predecessor and the vector
from it to its successor (`interiorAngle`). -/
theorem C10_angle_recomputation (c : FabrikChain) (h : 2 ≤ c.joints.length) :
    ∃ c', c.recalculate_angles = .ok c' ∧
      c'.joints = c.joints ∧
      c'.prev_angles = c.angles ∧
      c'.angles.length = c.joints.length ∧
      c'.angles[0]? = some Real.pi ∧
      c'.angles[c.joints.length - 1]? = some Real.pi ∧
      ∀ i, 0 < i → i + 1 < c.joints.length →
        c'.angles[i]? = some (interiorAngle c.joints i) := by
  refine ⟨_, recalculate_angles_eq c, ?_, ?_, ?_, ?_, ?_, ?_⟩
  · simp only [joints_withAngles, joints_withPrevAngles]
  · simp only [prev_angles_withAngles, prev_angles_withPrevAngles]
  · simp only [angles_withAngles, List.length_cons, List.length_append,
      List.length_map, List.length_range', List.length_nil]
    omega
  · simp only [angles_withAngles, List.getElem?_cons_zero]
  · simp only [angles_withAngles]
    have hL : (List.map (fun j => interiorAngle c.joints (j - 1))
        (List.range' 2 (c.joints.length - 2))).length =
        c.joints.length - 2 := by
      rw [List.length_map, List.length_range']
    have h1 : c.joints.length - 1 = (c.joints.length - 2) + 1 := by omega
    rw [h1, List.getElem?_cons_succ, List.getElem?_append_right hL.le,
      hL, Nat.sub_self, List.getElem?_cons_zero]
  · intro i hi0 hin
    simp only [angles_withAngles]
    have h1 : i = (i - 1) + 1 := by omega
    rw [h1, List.getElem?_cons_succ, List.getElem?_append]
    have hL : (List.map (fun j => interiorAngle c.joints (j - 1))
        (List.range' 2 (c.joints.length - 2))).length =
        c.joints.length - 2 := by
      rw [List.length_map, List.length_range']
    rw [if_pos (by omega), List.getElem?_map,
      List.getElem?_range' 2 1 (by omega : i - 1 < c.joints.length - 2)]
    simp only [Option.map_some']
    congr 1
    congr 1
    omega

/-- C10 witness: the theorem applied to the concrete two-joint chain
`cC10`. -/
theorem C10_witness :
    2 ≤ cC10.joints.length ∧
    (∃ c', cC10.recalculate_angles = .ok c' ∧
      c'.joints = cC10.joints ∧
      c'.prev_angles = cC10.angles ∧
      c'.angles.length = cC10.joints.length ∧
      c'.angles[0]? = some Real.pi ∧
      c'.angles[cC10.joints.length - 1]? = some Real.pi ∧
      ∀ i, 0 < i → i + 1 < cC10.joints.length →
        c'.angles[i]? = some (interiorAngle cC10.joints i)) :=
  ⟨by decide, C10_angle_recomputation cC10 (by decide)⟩

/-- C9: the claim states that a segment direction parallel to the fixed
world-up vector `(0,1,0)` is detected and given a fallback basis so the
segment transform never holds NaN.  The code performs no such check: on
`cC9`, whose single segment points along `(0,1,0)`, the first cross product
is the zero vector and the code normalizes it unchecked, which in `f32`
produces NaN components that flow into the quaternion and transform
(surfaced in this embedding as the `.nanNormalize` outcome). -/
theorem C9_parallel_segment_nan :
    cC9.recalculate_segments 0 = .error .nanNormalize := by
  simp [FabrikChain.recalculate_segments, FabrikChain.velocity_step,
    FabrikChain.segment_step, cC9, baseData, FabrikChain.joints,
    FabrikChain.lengths, FabrikChain.prev_angles, FabrikChain.angles,
    FabrikChain.angular_velocities, FabrikChain.segment_transforms,
    FabrikChain.prev_time, FabrikChain.data, FabrikChain.withPrevTime,
    FabrikChain.withAngularVelocities, FabrikChain.withSegmentTransforms,
    idx, usizeSub, Vec3.normalizeE, Vec3.cross, Vec3.smul,
    Vec3.length_squared, vec3_eq_zero_iff, List.foldlM,
    ok_bind, error_bind, map_error, map_ok, vec3_sub_def, vec3_add_def,
    pure_eq_ok, Real.sqrt_one]

end RobotArm
